import Mathlib

/-!
Verification of `warp_drive/training/utils/auto_scaler.py`.

The file shallowly embeds the two layers of the auto-scaler:

* `best_param_search` — the generic three-phase boundary search
  (floor discovery, ceiling discovery by doubling, bisection);
* `auto_scaling` and its probe closures (`set_num_envs_and_train`,
  `set_batch_size_per_env_and_train`), together with the
  `ProcessWrapper` / `launch_process` isolation mechanism.

Python machine integers are unbounded, so candidate values are `Nat`
(all candidate values are nonnegative: they arise from a positive
starting point by floor halving, doubling and midpoints).  A probe is
a function from the candidate and the current mutable state (the
configuration dictionary) to a success bit (`true` = the call
returned normally, `false` = it raised) and the state after the call:
mutations made before a raise persist, exactly as for a Python dict.
The doubling loop of the search genuinely may not terminate, so the
search takes a fuel parameter; `SearchOutcome.diverge` marks a run
that exhausted its fuel, i.e. a run whose real execution has not yet
returned within that many loop iterations.
-/

namespace WarpDrive

/-- A probe: candidate value and current state in, success bit and
updated state out.  `true` means the underlying Python call returned
normally; `false` means it raised an exception (which
`best_param_search` catches).  State mutations made before the raise
persist. -/
abbrev Probe (σ : Type) : Type := Nat → σ → Bool × σ

/-- The floor-discovery loop of `best_param_search` (lines 74-81):
entered after the probe failed at the current `low`; while `low > 0`,
halve `low` and probe again.  Returns `some l` with the first
successful value `l`, or `none` when `low` reached 0 without a
success (note the Python loop checks `low > 0` before halving, so a
probe at 0 is attempted when `low` was 1).  The loop always
terminates (`low` strictly decreases under halving); the structural
`fuel` argument only makes that termination evident to the kernel,
and `fuel = low` is always enough (halving a positive number `low`
reaches 0 in at most `low` steps), which is how `floorPhase` calls
it: the fuel-exhausted first branch is then exactly the `low = 0`
exit of the Python loop. -/
def floorLoop (probe : Probe σ) : Nat → Nat → σ → Option Nat × σ
  | 0, _, s => (none, s)
  | fuel + 1, low, s =>
    if low = 0 then (none, s)
    else
      let l := low / 2
      let r := probe l s
      if r.1 then (some l, r.2) else floorLoop probe fuel l r.2

/-- Lines 66-85 of the source: probe at the starting `low`; on failure
run the halving loop. -/
def floorPhase (probe : Probe σ) (low : Nat) (s : σ) : Option Nat × σ :=
  let r := probe low s
  if r.1 then (some low, r.2) else floorLoop probe low low r.2

/-- The ceiling-discovery loop (lines 89-100): while the probe keeps
succeeding, double.  `some ((low, high), s)` is the exit state: the
last successful value `low` and the first failing value
`high = 2 * low`.  `none` means the fuel ran out, i.e. the real loop
has not exited within `fuel` iterations (for a probe succeeding at
every power of two times `low` it never exits). -/
def doubleLoop (probe : Probe σ) : Nat → Nat → σ → Option ((Nat × Nat) × σ)
  | 0, _, _ => none
  | fuel + 1, low, s =>
    let high := 2 * low
    let r := probe high s
    if r.1 then doubleLoop probe fuel high r.2 else some ((low, high), r.2)

/-- The bisection loop (lines 102-114): while `high - low > margin`,
probe `mid = (low + high) / 2`; on success `low := mid`, on failure
`high := mid`.  Returns `some (low, s)` on normal exit, `none` on
fuel exhaustion (which for `margin ≥ 1` never happens with
`fuel ≥ high - low`, see `bisectLoop_terminates`). -/
def bisectLoop (probe : Probe σ) (margin : Nat) :
    Nat → Nat → Nat → σ → Option (Nat × σ)
  | fuel, low, high, s =>
    if high - low ≤ margin then some (low, s)
    else
      match fuel with
      | 0 => none
      | fuel + 1 =>
        let mid := (low + high) / 2
        let r := probe mid s
        if r.1 then bisectLoop probe margin fuel mid high r.2
        else bisectLoop probe margin fuel low mid r.2

/-- Outcome of `best_param_search`.  `assertFail` models the
`assert low > 0` / `assert margin > 0` at entry raising
`AssertionError`; `diverge` is fuel exhaustion (the real run is still
looping); `noViable` is the bare `return` after the floor phase fails
(Python `None`); `found v s` is `return low`. -/
inductive SearchOutcome (σ : Type) where
  | assertFail : SearchOutcome σ
  | diverge : SearchOutcome σ
  | noViable : σ → SearchOutcome σ
  | found : Nat → σ → SearchOutcome σ
deriving DecidableEq

/-- The function `best_param_search(low, margin, func)` (lines 46-117
of the source), with explicit fuel for the two loops that need it. -/
def best_param_search (fuel low margin : Nat) (probe : Probe σ) (s : σ) :
    SearchOutcome σ :=
  if low = 0 ∨ margin = 0 then .assertFail
  else
    match floorPhase probe low s with
    | (none, s₁) => .noViable s₁
    | (some l₀, s₁) =>
      match doubleLoop probe fuel l₀ s₁ with
      | none => .diverge
      | some ((lo, hi), s₂) =>
        match bisectLoop probe margin fuel lo hi s₂ with
        | none => .diverge
        | some (v, s₃) => .found v s₃

/-- A stateless probe, used when `best_param_search` is analysed on
its own: `p n = true` iff the probed call at `n` returns normally. -/
def pureProbe (p : Nat → Bool) : Probe Unit := fun n s => (p n, s)

/-- A stateless probe that additionally records every invocation
`(n, outcome)` in order, used to reason about which candidates the
search actually tried. -/
def logProbe (p : Nat → Bool) : Probe (List (Nat × Bool)) :=
  fun n s => (p n, s ++ [(n, p n)])

/-- The canonical monotone probe with boundary `T`: succeeds exactly
at candidates `≤ T`. -/
def probeLE (T : Nat) : Nat → Bool := fun n => decide (n ≤ T)

/-! ### The configuration model and the orchestrator `auto_scaling` -/

/-- A Python value as stored in the configuration dict: an int, a
float (modelled as an exact rational), a bool, or None. -/
inductive PyVal where
  | vint : Int → PyVal
  | vfloat : Rat → PyVal
  | vbool : Bool → PyVal
  | vnone : PyVal
deriving DecidableEq

/-- The Python exceptions the orchestrator can leave uncaught.
`childError` stands for the (re-raised) exception sent back from the
training child process; its precise class never matters. -/
inductive PyErr where
  | keyError : PyErr
  | typeError : PyErr
  | zeroDivisionError : PyErr
  | assertionError : PyErr
  | childError : PyErr
deriving DecidableEq

/-- Reading a field of the configuration dict: raises KeyError when
the key is absent. -/
def pyRead (v : Option PyVal) : Except PyErr PyVal :=
  match v with
  | none => .error .keyError
  | some x => .ok x

/-- Integer view of a Python value (a bool is an int in Python). -/
def PyVal.asInt : PyVal → Option Int
  | .vint i => some i
  | .vbool b => some (if b then 1 else 0)
  | _ => none

/-- Numeric view of a Python value. -/
def PyVal.asRat : PyVal → Option Rat
  | .vint i => some (mkRat i 1)
  | .vbool b => some (mkRat (if b then 1 else 0) 1)
  | .vfloat q => some q
  | .vnone => none

/-- Exact product of two rationals, built with `mkRat`. -/
def ratMul (a b : Rat) : Rat := mkRat (a.num * b.num) (a.den * b.den)

/-- Exact quotient of two rationals (the divisor is nonzero), built
with `mkRat`; the divisor's sign is moved into the numerator. -/
def ratDiv (a b : Rat) : Rat :=
  if b.num < 0 then mkRat (-(a.num * (b.den : Int))) (a.den * b.num.natAbs)
  else mkRat (a.num * (b.den : Int)) (a.den * b.num.natAbs)

/-- Python multiplication on configuration values: int (or bool) pairs
multiply to an int, any float makes the result a float, and None is
unsupported (TypeError). -/
def pyMul (a b : PyVal) : Except PyErr PyVal :=
  match a.asInt, b.asInt with
  | some i, some j => .ok (.vint (i * j))
  | _, _ =>
    match a.asRat, b.asRat with
    | some q, some r => .ok (.vfloat (ratMul q r))
    | _, _ => .error .typeError

/-- Python true division on configuration values: always produces a
float; division by zero raises; None is unsupported. -/
def pyDiv (a b : PyVal) : Except PyErr PyVal :=
  match a.asRat, b.asRat with
  | some q, some r =>
    if r = 0 then .error .zeroDivisionError else .ok (.vfloat (ratDiv q r))
  | _, _ => .error .typeError

/-- The configuration dict, restricted to the five fields the
auto-scaler touches (`trainer.num_envs`, `trainer.train_batch_size`,
`trainer.num_episodes`, `env.episode_length`, `saving.use_wandb`).
`none` means the key is absent (reading it raises KeyError); writes
create the key. -/
structure Config where
  num_envs : Option PyVal
  train_batch_size : Option PyVal
  num_episodes : Option PyVal
  episode_length : Option PyVal
  use_wandb : Option PyVal
deriving DecidableEq

/-- How one attempted training run inside the spawned child process
ends: it returns normally, raises an ordinary Python exception, or
crashes the child process abnormally (e.g. a segfault or an abort
that kills the interpreter before any handler runs). -/
inductive ChildOutcome where
  | normal : ChildOutcome
  | raised : ChildOutcome
  | crashed : ChildOutcome
deriving DecidableEq

/-- What `ProcessWrapper.run` (lines 32-37) leaves in the pipe.  The
child executes `try: run(); send(None) except Exception: send(e)` —
so a normal return sends None, a raised exception sends the
exception, and an abnormal crash of the child process sends nothing
at all (neither the `try` body nor the `except` handler completes).
The child works on its own copy of the configuration (spawn start
method pickles the arguments), so the parent's configuration is
unchanged no matter what the child does. -/
def childPipeMsg (child : Config → ChildOutcome) (c : Config) :
    Option (Option PyErr) :=
  match child c with
  | .normal => some none
  | .raised => some (some .childError)
  | .crashed => none

/-- The property `ProcessWrapper.exception` (lines 39-43): after `join`, poll the
parent end of the pipe; if a message arrived return it, otherwise the
stored `_exception` is still None. -/
def processException (child : Config → ChildOutcome) (c : Config) :
    Option PyErr :=
  match childPipeMsg child c with
  | some m => m
  | none => none

/-- The helper `launch_process` (lines 126-134): start the wrapped process, join
it, and re-raise `p.exception` if it is not None.  Note what this
does on an abnormal child crash: nothing was sent through the pipe,
`p.exception` is None, and the call returns as if the run had
succeeded. -/
def launch_process (child : Config → ChildOutcome) (c : Config) :
    Except PyErr Unit :=
  match processException child c with
  | some e => .error e
  | none => .ok ()

/-- The `num_episodes` formula shared by both probe closures (lines
144-148 and 158-162): `num_iters * train_batch_size /
episode_length`, evaluated left to right with Python semantics. -/
def numEpisodesFormula (num_iters : Int) (c : Config) :
    Except PyErr PyVal := do
  let tbs ← pyRead c.train_batch_size
  let prod ← pyMul (.vint num_iters) tbs
  let el ← pyRead c.episode_length
  pyDiv prod el

/-- The Stage-A probe closure `set_num_envs_and_train` (lines
136-150): write `num_envs` and `train_batch_size := num_envs`, derive
`num_episodes`, then delegate the run to `launch_process`.  An
exception at any point leaves the writes made so far in place and
makes the probe fail. -/
def set_num_envs_and_train (num_iters : Int)
    (child : Config → ChildOutcome) : Probe Config :=
  fun num_envs c =>
    let c₁ : Config := { c with
      num_envs := some (.vint (num_envs : Int)),
      train_batch_size := some (.vint (num_envs : Int)) }
    match numEpisodesFormula num_iters c₁ with
    | .error _ => (false, c₁)
    | .ok ne =>
      let c₂ := { c₁ with num_episodes := some ne }
      match launch_process child c₂ with
      | .ok _ => (true, c₂)
      | .error _ => (false, c₂)

/-- The Stage-B probe closure `set_batch_size_per_env_and_train`
(lines 152-164): write `train_batch_size := candidate * num_envs`
(the multiplication is evaluated before the write, so a TypeError
from a None `num_envs` leaves the config unchanged), derive
`num_episodes`, then delegate the run. -/
def set_batch_size_per_env_and_train (num_iters : Int)
    (child : Config → ChildOutcome) : Probe Config :=
  fun b c =>
    match (do
      let ne ← pyRead c.num_envs
      pyMul (.vint (b : Int)) ne : Except PyErr PyVal) with
    | .error _ => (false, c)
    | .ok tbs =>
      let c₁ := { c with train_batch_size := some tbs }
      match numEpisodesFormula num_iters c₁ with
      | .error _ => (false, c₁)
      | .ok ne =>
        let c₂ := { c₁ with num_episodes := some ne }
        match launch_process child c₂ with
        | .ok _ => (true, c₂)
        | .error _ => (false, c₂)

/-- Result of a whole `auto_scaling` run.  An uncaught exception
carries the configuration as the caller sees it afterwards (the dict
is caller-owned and mutated in place, so mutations survive the
raise); `diverge` again means the model's fuel ran out while a search
loop was still running. -/
inductive RunResult where
  | ok : Config → RunResult
  | error : PyErr → Config → RunResult
  | diverge : RunResult
deriving DecidableEq

/-- Lines 187-196: commit the Stage-B result
(`train_batch_size := max_batch_size_per_env * num_envs`, a TypeError
when a search came back with None), then restore the saved
`num_episodes` and `use_wandb` and return the config. -/
def auto_scaling_commit (saved_ne saved_wb : PyVal) (maxB : PyVal)
    (c : Config) : RunResult :=
  match pyRead c.num_envs with
  | .error e => .error e c
  | .ok ne =>
    match pyMul maxB ne with
    | .error e => .error e c
    | .ok t =>
      .ok { c with
        train_batch_size := some t,
        num_episodes := some saved_ne,
        use_wandb := some saved_wb }

/-- Lines 184-190: the Stage-B search (seeded at the default
`low = 1`, `margin = 1`) followed by the commit.  The Stage-A result
(`max_envs`, possibly None) has already been written into
`num_envs`. -/
def auto_scaling_stageB (child : Config → ChildOutcome)
    (num_iters : Int) (fuel : Nat) (saved_ne saved_wb : PyVal)
    (c : Config) : RunResult :=
  match best_param_search fuel 1 1
      (set_batch_size_per_env_and_train num_iters child) c with
  | .assertFail => .error .assertionError c
  | .diverge => .diverge
  | .noViable c₂ => auto_scaling_commit saved_ne saved_wb .vnone c₂
  | .found w c₂ =>
    auto_scaling_commit saved_ne saved_wb (.vint (w : Int)) c₂

/-- The orchestrator `auto_scaling` (lines 120-196): snapshot `num_episodes` and
`use_wandb`, force `use_wandb := False`, run the Stage-A search
seeded at the configuration's `num_envs`, write its result (None on
failure) into `num_envs`, then run Stage B and the commit/restore.
The model requires `num_envs` to be an int (as every real
configuration has); a nonpositive one trips the `assert low > 0`
at the entry of `best_param_search` (via `toNat`, a negative seed
becomes the failing 0). -/
def auto_scaling (child : Config → ChildOutcome) (config : Config)
    (num_iters : Int) (fuel : Nat) : RunResult :=
  match pyRead config.num_episodes with
  | .error e => .error e config
  | .ok saved_ne =>
    match pyRead config.use_wandb with
    | .error e => .error e config
    | .ok saved_wb =>
      let c₀ := { config with use_wandb := some (.vbool false) }
      match pyRead c₀.num_envs with
      | .error e => .error e c₀
      | .ok ev =>
        match ev with
        | .vint i =>
          match best_param_search fuel i.toNat 1
              (set_num_envs_and_train num_iters child) c₀ with
          | .assertFail => .error .assertionError c₀
          | .diverge => .diverge
          | .noViable c₁ =>
            auto_scaling_stageB child num_iters fuel saved_ne saved_wb
              { c₁ with num_envs := some .vnone }
          | .found v c₁ =>
            auto_scaling_stageB child num_iters fuel saved_ne saved_wb
              { c₁ with num_envs := some (.vint (v : Int)) }
        | _ => .error .typeError c₀

/-- The success bit a probe closure reports after delegating a run to
`launch_process`: `true` iff the launch raised nothing. -/
def isLaunchOk (child : Config → ChildOutcome) (c : Config) : Bool :=
  match launch_process child c with
  | .ok _ => true
  | .error _ => false

/-- A training function whose child process always raises (every probe
fails). -/
def childRaise : Config → ChildOutcome := fun _ => .raised

/-- A training function whose child process always crashes abnormally. -/
def childCrash : Config → ChildOutcome := fun _ => .crashed

/-- A training function that succeeds exactly when the configured
`train_batch_size` is an int `≤ 8`, and raises otherwise: a simple
monotone resource limit. -/
def childBound (c : Config) : ChildOutcome :=
  match c.train_batch_size with
  | some (.vint t) => if t ≤ 8 then .normal else .raised
  | _ => .raised

/-- A well-formed demonstration configuration. -/
def cfgDemo : Config :=
  ⟨some (.vint 4), some (.vint 8), some (.vint 100), some (.vint 1),
    some (.vbool true)⟩

/-- A demonstration configuration with a different shape (seed 2,
`num_episodes` 50). -/
def cfgSmall : Config :=
  ⟨some (.vint 2), some (.vint 4), some (.vint 50), some (.vint 1),
    some (.vbool true)⟩

/-- A configuration whose `trainer.train_batch_size` key is absent. -/
def cfgMissingTbs : Config :=
  ⟨some (.vint 2), none, some (.vint 100), some (.vint 1),
    some (.vbool true)⟩

/-- A configuration whose `trainer.num_episodes` key is absent. -/
def cfgMissingNumEpisodes : Config :=
  ⟨some (.vint 2), some (.vint 4), none, some (.vint 1),
    some (.vbool true)⟩

/-! ### Generic lemmas about the three phases -/

/-- The fuel `floorPhase` passes to `floorLoop` is sufficient: with
`low ≤ fuel` the fuel-exhausted branch is only ever taken at
`low = 0`, i.e. the fueled loop equals the unbounded Python loop.
Concretely, adding fuel beyond `low` never changes the result. -/
theorem floorLoop_fuel_sufficient (probe : Probe σ) :
    ∀ fuel fuel' low s, low ≤ fuel → low ≤ fuel' →
      floorLoop probe fuel low s = floorLoop probe fuel' low s := by
  intro fuel
  induction fuel with
  | zero =>
    intro fuel' low s h h'
    have : low = 0 := by omega
    subst this
    cases fuel' with
    | zero => rfl
    | succ f => rw [floorLoop, floorLoop, if_pos rfl]
  | succ f ih =>
    intro fuel' low s h h'
    by_cases h0 : low = 0
    · subst h0
      cases fuel' with
      | zero => rw [floorLoop, floorLoop, if_pos rfl]
      | succ f' => rw [floorLoop, floorLoop, if_pos rfl, if_pos rfl]
    · cases fuel' with
      | zero => omega
      | succ f' =>
        rw [floorLoop, floorLoop, if_neg h0, if_neg h0]
        cases hr : (probe (low / 2) s).1
        · simp only [hr, Bool.false_eq_true, if_false]
          exact ih f' (low / 2) _ (by omega) (by omega)
        · simp only [hr, if_true]

example :
    best_param_search 40 1 1 (pureProbe (probeLE 37)) () =
      .found 37 () := by decide

example :
    best_param_search 40 4 1 (pureProbe (fun _ => false)) () =
      .noViable () := by
  simp [best_param_search, floorPhase, floorLoop, pureProbe]

example :
    best_param_search 3 1 1 (pureProbe (probeLE 0)) () =
      .diverge := by
  simp [best_param_search, floorPhase, floorLoop, doubleLoop, pureProbe,
    probeLE]

/-- If the probe fails at every candidate without changing the state,
the floor loop reaches 0 and reports no success. -/
theorem floorLoop_const_fail (probe : Probe σ) (s : σ)
    (h : ∀ n, probe n s = (false, s)) :
    ∀ fuel low, floorLoop probe fuel low s = (none, s) := by
  intro fuel
  induction fuel with
  | zero => intro low; rfl
  | succ f ih =>
    intro low
    rw [floorLoop]
    by_cases h0 : low = 0
    · rw [if_pos h0]
    · rw [if_neg h0]
      simp only [h]
      exact ih (low / 2)

/-- If the probe fails at every candidate without changing the state,
the whole floor phase fails. -/
theorem floorPhase_const_fail (probe : Probe σ) (s : σ)
    (h : ∀ n, probe n s = (false, s)) (low : Nat) :
    floorPhase probe low s = (none, s) := by
  simp only [floorPhase, h]
  exact floorLoop_const_fail probe s h low low

/-- For the boundary probe with `1 ≤ T`, the floor loop entered at a
failing `low` (so `T < low`) with enough fuel finds a successful
positive value `≤ T`. -/
theorem floorLoop_probeLE (T : Nat) (hT : 1 ≤ T) :
    ∀ fuel low, low ≤ fuel → T < low →
      ∃ l, floorLoop (pureProbe (probeLE T)) fuel low () = (some l, ()) ∧
        1 ≤ l ∧ l ≤ T := by
  intro fuel
  induction fuel with
  | zero => intro low hf hlow; omega
  | succ f ih =>
    intro low hf hlow
    rw [floorLoop]
    have hne : ¬ low = 0 := by omega
    rw [if_neg hne]
    by_cases hl : low / 2 ≤ T
    · exact ⟨low / 2, by simp [pureProbe, probeLE, hl], by omega, hl⟩
    · obtain ⟨l, hl₁, hl₂, hl₃⟩ := ih (low / 2) (by omega) (by omega)
      refine ⟨l, ?_, hl₂, hl₃⟩
      simpa [pureProbe, probeLE, hl] using hl₁

/-- For the boundary probe with `1 ≤ T`, the floor phase starting at
any positive `low` finds a successful positive value `≤ T`. -/
theorem floorPhase_probeLE (T low : Nat) (hT : 1 ≤ T) (hlow : 1 ≤ low) :
    ∃ l, floorPhase (pureProbe (probeLE T)) low () = (some l, ()) ∧
      1 ≤ l ∧ l ≤ T := by
  by_cases hl : low ≤ T
  · exact ⟨low, by simp [floorPhase, pureProbe, probeLE, hl], hlow, hl⟩
  · have := floorLoop_probeLE T hT low low (le_refl low) (by omega)
    obtain ⟨l, h₁, h₂, h₃⟩ := this
    exact ⟨l, by simpa [floorPhase, pureProbe, probeLE, hl] using h₁, h₂, h₃⟩

/-- With enough fuel, the doubling loop started at a successful
positive value below the boundary exits with `low ≤ T < high = 2 * low`. -/
theorem doubleLoop_probeLE (T : Nat) :
    ∀ fuel low, 1 ≤ low → low ≤ T → T < 2 ^ fuel * low →
      ∃ lo, doubleLoop (pureProbe (probeLE T)) fuel low () =
          some ((lo, 2 * lo), ()) ∧ low ≤ lo ∧ lo ≤ T ∧ T < 2 * lo := by
  intro fuel
  induction fuel with
  | zero => intro low h₁ h₂ h₃; simp at h₃; omega
  | succ f ih =>
    intro low h₁ h₂ h₃
    rw [doubleLoop]
    by_cases hh : 2 * low ≤ T
    · have hrec := ih (2 * low) (by omega) hh
        (by rw [pow_succ, Nat.mul_assoc] at h₃; exact h₃)
      obtain ⟨lo, hl₁, hl₂, hl₃, hl₄⟩ := hrec
      refine ⟨lo, ?_, by omega, hl₃, hl₄⟩
      simpa [pureProbe, probeLE, hh] using hl₁
    · exact ⟨low, by simp [pureProbe, probeLE, hh], le_refl low, h₂, by omega⟩

/-- If the probe succeeds at 0 (leaving the state fixed), the doubling
loop started at 0 never exits: `high = 2 * 0 = 0` succeeds forever. -/
theorem doubleLoop_zero (probe : Probe σ) (s : σ) (h : probe 0 s = (true, s)) :
    ∀ fuel, doubleLoop probe fuel 0 s = none := by
  intro fuel
  induction fuel with
  | zero => rfl
  | succ f ih => rw [doubleLoop]; simp only [Nat.mul_zero, h]; exact ih

/-- With `margin ≥ 1` and fuel at least the initial gap, the bisection
loop exits normally. -/
theorem bisectLoop_some (probe : Probe σ) (margin : Nat) (hm : 1 ≤ margin) :
    ∀ fuel low high s, high - low ≤ fuel →
      ∃ v s', bisectLoop probe margin fuel low high s = some (v, s') := by
  intro fuel
  induction fuel with
  | zero =>
    intro low high s hf
    rw [bisectLoop]
    rw [if_pos (by omega)]
    exact ⟨low, s, rfl⟩
  | succ f ih =>
    intro low high s hf
    rw [bisectLoop]
    by_cases hc : high - low ≤ margin
    · rw [if_pos hc]; exact ⟨low, s, rfl⟩
    · rw [if_neg hc]
      by_cases hp : (probe ((low + high) / 2) s).1
      · simp only [hp, if_true]
        exact ih ((low + high) / 2) high (probe ((low + high) / 2) s).2
          (by omega)
      · simp only [hp, if_false]
        exact ih low ((low + high) / 2) (probe ((low + high) / 2) s).2
          (by omega)

/-- On exit of the doubling loop for a stateless probe that succeeded
at the positive start value, the bracket satisfies `lo < hi`, the probe
succeeds at `lo` and fails at `hi` (and `hi = 2 * lo`). -/
theorem doubleLoop_pure_inv (p : Nat → Bool) :
    ∀ fuel low lo hi, 1 ≤ low → p low = true →
      doubleLoop (pureProbe p) fuel low () = some ((lo, hi), ()) →
      lo < hi ∧ p lo = true ∧ p hi = false ∧ hi = 2 * lo := by
  intro fuel
  induction fuel with
  | zero => intro low lo hi _ _ h; simp [doubleLoop] at h
  | succ f ih =>
    intro low lo hi h₁ h₂ h
    rw [doubleLoop] at h
    by_cases hp : p (2 * low) = true
    · simp only [pureProbe, hp, if_true] at h
      exact ih (2 * low) lo hi (by omega) hp h
    · rw [Bool.not_eq_true] at hp
      simp only [pureProbe, hp, Bool.false_eq_true, if_false,
        Option.some.injEq, Prod.mk.injEq] at h
      obtain ⟨⟨hlo, hhi⟩, -⟩ := h
      subst hlo; subst hhi
      exact ⟨by omega, h₂, hp, rfl⟩

/-- Bisection on the boundary probe keeps `lo ≤ T < hi` and, with
`margin ≥ 1` and enough fuel, exits with a value `v` satisfying
`T < v + margin` and `v ≤ T`. -/
theorem bisectLoop_probeLE (T margin : Nat) (hm : 1 ≤ margin) :
    ∀ fuel lo hi, lo ≤ T → T < hi → hi - lo ≤ fuel →
      ∃ v, bisectLoop (pureProbe (probeLE T)) margin fuel lo hi () =
        some (v, ()) ∧ v ≤ T ∧ T < v + margin := by
  intro fuel
  induction fuel with
  | zero =>
    intro lo hi h₁ h₂ hf
    rw [bisectLoop, if_pos (by omega)]
    exact ⟨lo, rfl, h₁, by omega⟩
  | succ f ih =>
    intro lo hi h₁ h₂ hf
    rw [bisectLoop]
    by_cases hc : hi - lo ≤ margin
    · rw [if_pos hc]
      exact ⟨lo, rfl, h₁, by omega⟩
    · rw [if_neg hc]
      by_cases hmid : (lo + hi) / 2 ≤ T
      · obtain ⟨v, hv, hv₁, hv₂⟩ := ih ((lo + hi) / 2) hi hmid h₂ (by omega)
        refine ⟨v, ?_, hv₁, hv₂⟩
        simpa [pureProbe, probeLE, hmid] using hv
      · obtain ⟨v, hv, hv₁, hv₂⟩ := ih lo ((lo + hi) / 2) h₁ (by omega)
          (by omega)
        refine ⟨v, ?_, hv₁, hv₂⟩
        simpa [pureProbe, probeLE, hmid] using hv

/-! ### Claim theorems about the generic search -/

/-- C6: for every `margin ≥ 1` and every probe, the bisection phase of
`best_param_search` terminates (given fuel at least the initial gap,
it never exhausts the fuel), its final return value is the current
`low` (this is what the normal exit returns), and each iteration makes
`high - low` strictly smaller. -/
theorem bisection_terminates_returns_low (probe : Probe σ)
    (margin fuel low high : Nat) (s : σ)
    (hm : 1 ≤ margin) (hf : high - low ≤ fuel) :
    (high - low ≤ margin →
      bisectLoop probe margin fuel low high s = some (low, s)) ∧
    (margin < high - low →
      high - (low + high) / 2 < high - low ∧
      (low + high) / 2 - low < high - low) ∧
    (∃ v s', bisectLoop probe margin fuel low high s = some (v, s')) := by
  refine ⟨?_, ?_, bisectLoop_some probe margin hm fuel low high s hf⟩
  · intro hc
    cases fuel with
    | zero => rw [bisectLoop, if_pos hc]
    | succ f => rw [bisectLoop, if_pos hc]
  · intro hc
    omega

/-- Witness for C6 at a concrete probe and bracket. -/
theorem bisection_terminates_returns_low_witness :
    (1 ≤ 1 ∧ 8 - 4 ≤ 10) ∧
    ((8 - 4 ≤ 1 →
      bisectLoop (pureProbe (probeLE 5)) 1 10 4 8 () = some (4, ())) ∧
    (1 < 8 - 4 →
      8 - (4 + 8) / 2 < 8 - 4 ∧ (4 + 8) / 2 - 4 < 8 - 4) ∧
    (∃ v s', bisectLoop (pureProbe (probeLE 5)) 1 10 4 8 () =
      some (v, s'))) :=
  ⟨⟨by decide, by decide⟩,
    bisection_terminates_returns_low (pureProbe (probeLE 5)) 1 10 4 8 ()
      (by decide) (by decide)⟩

/-- C7: once the doubling phase establishes `high` (it exits with a
bracket `(lo, hi)`), the invariant `lo < hi`, probe succeeds at `lo`,
probe fails at `hi` holds, and a single bisection iteration (probing
`mid = (lo' + hi') / 2` and moving `lo'` up on success or `hi'` down
on failure) preserves it. -/
theorem search_bracket_invariant (p : Nat → Bool)
    (fuel low₀ lo hi margin : Nat)
    (h₀ : 1 ≤ low₀) (hp₀ : p low₀ = true)
    (hd : doubleLoop (pureProbe p) fuel low₀ () = some ((lo, hi), ())) :
    (lo < hi ∧ p lo = true ∧ p hi = false) ∧
    (∀ lo' hi', lo' < hi' → p lo' = true → p hi' = false →
      margin < hi' - lo' →
      if p ((lo' + hi') / 2) = true
      then (lo' + hi') / 2 < hi' ∧ p ((lo' + hi') / 2) = true ∧
        p hi' = false
      else lo' < (lo' + hi') / 2 ∧ p lo' = true ∧
        p ((lo' + hi') / 2) = false) := by
  obtain ⟨h₁, h₂, h₃, -⟩ := doubleLoop_pure_inv p fuel low₀ lo hi h₀ hp₀ hd
  refine ⟨⟨h₁, h₂, h₃⟩, ?_⟩
  intro lo' hi' hlt hplo hphi hgap
  by_cases hmid : p ((lo' + hi') / 2) = true
  · rw [if_pos hmid]
    exact ⟨by omega, hmid, hphi⟩
  · rw [if_neg hmid]
    rw [Bool.not_eq_true] at hmid
    have hne : (lo' + hi') / 2 ≠ lo' := by
      intro he; rw [he, hplo] at hmid; exact Bool.noConfusion hmid
    exact ⟨by omega, hplo, hmid⟩

/-- Witness for C7 at a concrete probe: boundary 5, doubling from 2
exits with the bracket `(4, 8)`. -/
theorem search_bracket_invariant_witness :
    (1 ≤ 2 ∧ probeLE 5 2 = true ∧
      doubleLoop (pureProbe (probeLE 5)) 10 2 () = some ((4, 8), ())) ∧
    ((4 < 8 ∧ probeLE 5 4 = true ∧ probeLE 5 8 = false) ∧
    (∀ lo' hi', lo' < hi' → probeLE 5 lo' = true → probeLE 5 hi' = false →
      1 < hi' - lo' →
      if probeLE 5 ((lo' + hi') / 2) = true
      then (lo' + hi') / 2 < hi' ∧ probeLE 5 ((lo' + hi') / 2) = true ∧
        probeLE 5 hi' = false
      else lo' < (lo' + hi') / 2 ∧ probeLE 5 lo' = true ∧
        probeLE 5 ((lo' + hi') / 2) = false)) :=
  ⟨⟨by decide, by decide, by decide⟩,
    search_bracket_invariant (probeLE 5) 10 2 4 8 1 (by decide) (by decide)
      (by decide)⟩

/-- A probe that succeeds at 0 but fails at 1 sends
`best_param_search(1, 1, probe)` into the doubling loop at `low = 0`,
where `high = 2 * 0 = 0` succeeds forever: the search never returns,
whatever the fuel. -/
theorem bps_zero_boundary_diverges (p : Nat → Bool) (h0 : p 0 = true)
    (h1 : p 1 = false) :
    ∀ fuel, best_param_search fuel 1 1 (pureProbe p) () = .diverge := by
  intro fuel
  have hfp : floorPhase (pureProbe p) 1 () = (some 0, ()) := by
    simp [floorPhase, floorLoop, pureProbe, h0, h1]
  have hdl : doubleLoop (pureProbe p) fuel 0 () = none :=
    doubleLoop_zero (pureProbe p) () (by simp [pureProbe, h0]) fuel
  simp [best_param_search, hfp, hdl]

/-- C1 (amended: the boundary `T` must be positive; for `T = 0` the
search diverges, see `monotone_boundary_fails_at_boundary_zero`): for
every probe succeeding exactly at candidates `≤ T` with `T ≥ 1`, and
every `low ≥ 1`, `margin ≥ 1`, the search (with sufficient fuel
`T + 1`) returns a value `v` with `T - margin ≤ v ≤ T`. -/
theorem best_param_search_monotone_boundary (p : Nat → Bool)
    (T low margin : Nat) (hp : ∀ n, p n = true ↔ n ≤ T)
    (hT : 1 ≤ T) (hlow : 1 ≤ low) (hmargin : 1 ≤ margin) :
    ∃ v, best_param_search (T + 1) low margin (pureProbe p) () =
      .found v () ∧ T - margin ≤ v ∧ v ≤ T := by
  have hpe : p = probeLE T := by
    funext n
    cases hb : p n
    · by_cases hn : n ≤ T
      · exact absurd ((hp n).mpr hn) (by simp [hb])
      · simp [probeLE, hn]
    · simp [probeLE, (hp n).mp hb]
  subst hpe
  obtain ⟨l₀, hfp, hl₀, hl₀T⟩ := floorPhase_probeLE T low hT hlow
  have hbound : T < 2 ^ (T + 1) * l₀ := by
    have h1 : T < 2 ^ T := Nat.lt_two_pow T
    have h2 : 2 ^ T ≤ 2 ^ (T + 1) := Nat.pow_le_pow_right (by norm_num)
      (by omega)
    have h3 : 2 ^ (T + 1) * 1 ≤ 2 ^ (T + 1) * l₀ :=
      Nat.mul_le_mul_left _ hl₀
    omega
  obtain ⟨lo, hdl, hlo₁, hlo₂, hlo₃⟩ :=
    doubleLoop_probeLE T (T + 1) l₀ hl₀ hl₀T hbound
  obtain ⟨v, hbl, hv₁, hv₂⟩ := bisectLoop_probeLE T margin hmargin (T + 1)
    lo (2 * lo) hlo₂ hlo₃ (by omega)
  refine ⟨v, ?_, by omega, hv₁⟩
  rw [best_param_search, if_neg (by omega), hfp]
  simp only [hdl, hbl]

/-- Witness for C1 at the spec's example scenario 1:
boundary `T = 37`, `low = 1`, `margin = 1`. -/
theorem best_param_search_monotone_boundary_witness :
    ((∀ n, probeLE 37 n = true ↔ n ≤ 37) ∧ 1 ≤ 37 ∧ 1 ≤ 1) ∧
    ∃ v, best_param_search 38 1 1 (pureProbe (probeLE 37)) () =
      .found v () ∧ 37 - 1 ≤ v ∧ v ≤ 37 :=
  ⟨⟨fun n => by simp [probeLE], by decide, by decide⟩,
    best_param_search_monotone_boundary (probeLE 37) 37 1 1
      (fun n => by simp [probeLE]) (by decide) (by decide) (by decide)⟩

/-- Counterexample to C1 as stated: for the probe that succeeds
exactly at candidates `≤ 0` (boundary `T = 0`), with `low = 1`,
`margin = 1`, the search never returns any value at all — it loops in
the doubling phase — so in particular it returns no `v` with
`T - margin ≤ v ≤ T`. -/
theorem monotone_boundary_fails_at_boundary_zero :
    ¬ ∃ fuel v, best_param_search fuel 1 1 (pureProbe (probeLE 0)) () =
      .found v () ∧ 0 - 1 ≤ v ∧ v ≤ 0 := by
  rintro ⟨fuel, v, hv, -, -⟩
  rw [bps_zero_boundary_diverges (probeLE 0) (by decide) (by decide) fuel]
    at hv
  exact SearchOutcome.noConfusion hv

/-- C4 (amended: the probe must fail at every candidate including 0;
a probe failing at all positive candidates but succeeding at 0 makes
the search diverge, see `all_fail_positive_not_noviable`): if the
probe fails at every candidate, the search terminates with the
no-viable-value result, for every fuel, `low ≥ 1` and `margin ≥ 1`. -/
theorem best_param_search_all_fail (p : Nat → Bool) (h : ∀ n, p n = false)
    (fuel low margin : Nat) (hlow : 1 ≤ low) (hmargin : 1 ≤ margin) :
    best_param_search fuel low margin (pureProbe p) () = .noViable () := by
  have hfp : floorPhase (pureProbe p) low () = (none, ()) :=
    floorPhase_const_fail (pureProbe p) ()
      (fun n => by simp [pureProbe, h]) low
  rw [best_param_search, if_neg (by omega), hfp]

/-- Witness for C4 at the spec's example scenario 2: an always-failing
probe with `low = 4`, `margin = 1`. -/
theorem best_param_search_all_fail_witness :
    ((∀ n, (fun _ : Nat => false) n = false) ∧ 1 ≤ 4 ∧ 1 ≤ 1) ∧
    best_param_search 10 4 1 (pureProbe (fun _ => false)) () =
      .noViable () :=
  ⟨⟨fun _ => rfl, by decide, by decide⟩,
    best_param_search_all_fail (fun _ => false) (fun _ => rfl) 10 4 1
      (by decide) (by decide)⟩

/-- Counterexample to C4 as stated: the probe `n = 0` fails at every
positive integer candidate, yet with `low = 1`, `margin = 1` the
search does not return the no-viable-value result (it diverges in the
doubling phase after the floor phase succeeds at 0). -/
theorem all_fail_positive_not_noviable :
    ¬ ∃ fuel, best_param_search fuel 1 1
      (pureProbe (fun n => decide (n = 0))) () = .noViable () := by
  rintro ⟨fuel, hf⟩
  rw [bps_zero_boundary_diverges (fun n => decide (n = 0)) (by decide)
    (by decide) fuel] at hf
  exact SearchOutcome.noConfusion hf

/-! ### Instrumented runs: the search only returns values it probed -/

/-- The floor phase only appends genuine probe records to the log, and
a successful result was recorded as a success. -/
theorem floorLoop_log (p : Nat → Bool) :
    ∀ fuel low s o s', floorLoop (logProbe p) fuel low s = (o, s') →
      ∃ ext, s' = s ++ ext ∧ (∀ e ∈ ext, e.2 = p e.1) ∧
        (∀ l, o = some l → (l, true) ∈ ext) := by
  intro fuel
  induction fuel with
  | zero =>
    intro low s o s' h
    injection h with h₁ h₂
    refine ⟨[], by rw [← h₂, List.append_nil], by simp, ?_⟩
    intro l hl
    rw [← h₁] at hl
    exact Option.noConfusion hl
  | succ f ih =>
    intro low s o s' h
    by_cases h0 : low = 0
    · rw [floorLoop, if_pos h0] at h
      injection h with h₁ h₂
      refine ⟨[], by rw [← h₂, List.append_nil], by simp, ?_⟩
      intro l hl
      rw [← h₁] at hl
      exact Option.noConfusion hl
    · rw [floorLoop, if_neg h0] at h
      by_cases hp : p (low / 2) = true
      · simp only [logProbe, hp, if_true] at h
        injection h with h₁ h₂
        refine ⟨[(low / 2, true)], by rw [← h₂], ?_, ?_⟩
        · intro e he
          simp only [List.mem_singleton] at he
          rw [he, hp]
        · intro l hl
          rw [← h₁] at hl
          injection hl with hl
          rw [← hl]
          simp
      · rw [Bool.not_eq_true] at hp
        simp only [logProbe, hp, Bool.false_eq_true, if_false] at h
        obtain ⟨ext', he₁, he₂, he₃⟩ := ih (low / 2) _ _ _ h
        refine ⟨(low / 2, false) :: ext', ?_, ?_, ?_⟩
        · rw [he₁, List.append_assoc]; rfl
        · intro e he
          rcases List.mem_cons.mp he with he | he
          · rw [he, hp]
          · exact he₂ e he
        · intro l hl
          exact List.mem_cons_of_mem _ (he₃ l hl)

/-- As `floorLoop_log`, for the whole floor phase. -/
theorem floorPhase_log (p : Nat → Bool) (low : Nat) (s : List (Nat × Bool))
    (o : Option Nat) (s' : List (Nat × Bool))
    (h : floorPhase (logProbe p) low s = (o, s')) :
    ∃ ext, s' = s ++ ext ∧ (∀ e ∈ ext, e.2 = p e.1) ∧
      (∀ l, o = some l → (l, true) ∈ ext) := by
  by_cases hp : p low = true
  · simp only [floorPhase, logProbe, hp, if_true] at h
    injection h with h₁ h₂
    refine ⟨[(low, true)], by rw [← h₂], ?_, ?_⟩
    · intro e he
      simp only [List.mem_singleton] at he
      rw [he, hp]
    · intro l hl
      rw [← h₁] at hl
      injection hl with hl
      rw [← hl]
      simp
  · rw [Bool.not_eq_true] at hp
    simp only [floorPhase, logProbe, hp, Bool.false_eq_true, if_false] at h
    obtain ⟨ext', he₁, he₂, he₃⟩ := floorLoop_log p low low _ _ _ h
    refine ⟨(low, false) :: ext', ?_, ?_, ?_⟩
    · rw [he₁, List.append_assoc]; rfl
    · intro e he
      rcases List.mem_cons.mp he with he | he
      · rw [he, hp]
      · exact he₂ e he
    · intro l hl
      exact List.mem_cons_of_mem _ (he₃ l hl)

/-- The doubling loop only appends genuine probe records, and its exit
`lo` is either the entry value or was recorded as a success. -/
theorem doubleLoop_log (p : Nat → Bool) :
    ∀ fuel low s lo hi s',
      doubleLoop (logProbe p) fuel low s = some ((lo, hi), s') →
      ∃ ext, s' = s ++ ext ∧ (∀ e ∈ ext, e.2 = p e.1) ∧
        (lo = low ∨ (lo, true) ∈ ext) := by
  intro fuel
  induction fuel with
  | zero => intro low s lo hi s' h; exact Option.noConfusion h
  | succ f ih =>
    intro low s lo hi s' h
    rw [doubleLoop] at h
    by_cases hp : p (2 * low) = true
    · simp only [logProbe, hp, if_true] at h
      obtain ⟨ext', he₁, he₂, he₃⟩ := ih (2 * low) _ lo hi s' h
      refine ⟨(2 * low, true) :: ext', ?_, ?_, Or.inr ?_⟩
      · rw [he₁, List.append_assoc]; rfl
      · intro e he
        rcases List.mem_cons.mp he with he | he
        · rw [he, hp]
        · exact he₂ e he
      · rcases he₃ with he₃ | he₃
        · rw [he₃]; simp [hp]
        · exact List.mem_cons_of_mem _ he₃
    · rw [Bool.not_eq_true] at hp
      simp only [logProbe, hp, Bool.false_eq_true, if_false,
        Option.some.injEq, Prod.mk.injEq] at h
      obtain ⟨⟨h₁, -⟩, h₂⟩ := h
      refine ⟨[(2 * low, false)], by rw [← h₂], ?_, Or.inl h₁.symm⟩
      intro e he
      simp only [List.mem_singleton] at he
      rw [he, hp]

/-- The bisection loop only appends genuine probe records, and its
returned value is either the entry `lo` or was recorded as a
success. -/
theorem bisectLoop_log (p : Nat → Bool) (margin : Nat) :
    ∀ fuel lo hi s v s',
      bisectLoop (logProbe p) margin fuel lo hi s = some (v, s') →
      ∃ ext, s' = s ++ ext ∧ (∀ e ∈ ext, e.2 = p e.1) ∧
        (v = lo ∨ (v, true) ∈ ext) := by
  intro fuel
  induction fuel with
  | zero =>
    intro lo hi s v s' h
    rw [bisectLoop] at h
    by_cases hc : hi - lo ≤ margin
    · rw [if_pos hc] at h
      injection h with h
      injection h with h₁ h₂
      exact ⟨[], by rw [← h₂, List.append_nil], by simp, Or.inl h₁.symm⟩
    · rw [if_neg hc] at h
      exact Option.noConfusion h
  | succ f ih =>
    intro lo hi s v s' h
    rw [bisectLoop] at h
    by_cases hc : hi - lo ≤ margin
    · rw [if_pos hc] at h
      injection h with h
      injection h with h₁ h₂
      exact ⟨[], by rw [← h₂, List.append_nil], by simp, Or.inl h₁.symm⟩
    · rw [if_neg hc] at h
      by_cases hp : p ((lo + hi) / 2) = true
      · simp only [logProbe, hp, if_true] at h
        obtain ⟨ext', he₁, he₂, he₃⟩ := ih ((lo + hi) / 2) hi _ v s' h
        refine ⟨((lo + hi) / 2, true) :: ext', ?_, ?_, Or.inr ?_⟩
        · rw [he₁, List.append_assoc]; rfl
        · intro e he
          rcases List.mem_cons.mp he with he | he
          · rw [he, hp]
          · exact he₂ e he
        · rcases he₃ with he₃ | he₃
          · rw [he₃]; simp [hp]
          · exact List.mem_cons_of_mem _ he₃
      · rw [Bool.not_eq_true] at hp
        simp only [logProbe, hp, Bool.false_eq_true, if_false] at h
        obtain ⟨ext', he₁, he₂, he₃⟩ := ih lo ((lo + hi) / 2) _ v s' h
        refine ⟨((lo + hi) / 2, false) :: ext', ?_, ?_, ?_⟩
        · rw [he₁, List.append_assoc]; rfl
        · intro e he
          rcases List.mem_cons.mp he with he | he
          · rw [he, hp]
          · exact he₂ e he
        · rcases he₃ with he₃ | he₃
          · exact Or.inl he₃
          · exact Or.inr (List.mem_cons_of_mem _ he₃)

/-- C10: if the instrumented search returns a value `v`, then the
probe was actually invoked at `v` during the search and that
invocation succeeded: `(v, true)` appears in the call log, and the
probe function holds at `v`. -/
theorem best_param_search_returns_probed (p : Nat → Bool)
    (fuel low margin v : Nat) (log : List (Nat × Bool))
    (hlow : 1 ≤ low) (hmargin : 1 ≤ margin)
    (h : best_param_search fuel low margin (logProbe p) [] =
      .found v log) :
    (v, true) ∈ log ∧ p v = true := by
  rw [best_param_search, if_neg (by omega)] at h
  rcases hfp : floorPhase (logProbe p) low [] with ⟨o, s₁⟩
  rw [hfp] at h
  rcases o with - | l₀
  · exact SearchOutcome.noConfusion h
  · simp only at h
    rcases hdl : doubleLoop (logProbe p) fuel l₀ s₁ with - | ⟨⟨lo, hi⟩, s₂⟩
    · rw [hdl] at h; exact SearchOutcome.noConfusion h
    · rw [hdl] at h
      simp only at h
      rcases hbl : bisectLoop (logProbe p) margin fuel lo hi s₂
        with - | ⟨v', s₃⟩
      · rw [hbl] at h; exact SearchOutcome.noConfusion h
      · rw [hbl] at h
        simp only at h
        injection h with h₁ h₂
        rw [h₁, h₂] at hbl
        obtain ⟨e₁, hs₁, hw₁, hm₁⟩ := floorPhase_log p low [] _ _ hfp
        obtain ⟨e₂, hs₂, hw₂, hm₂⟩ := doubleLoop_log p fuel l₀ s₁ lo hi _ hdl
        obtain ⟨e₃, hs₃, hw₃, hm₃⟩ := bisectLoop_log p margin fuel lo hi s₂
          v log hbl
        have hmem : (v, true) ∈ log := by
          rcases hm₃ with hm₃ | hm₃
          · rcases hm₂ with hm₂ | hm₂
            · have hv₁ : (v, true) ∈ e₁ := by
                rw [hm₃, hm₂]; exact hm₁ l₀ rfl
              rw [hs₃, hs₂, hs₁]
              simp only [List.nil_append]
              exact List.mem_append_left _ (List.mem_append_left _ hv₁)
            · have hv₂ : (v, true) ∈ e₂ := by rw [hm₃]; exact hm₂
              rw [hs₃, hs₂]
              exact List.mem_append_left _ (List.mem_append_right _ hv₂)
          · rw [hs₃]
            exact List.mem_append_right _ hm₃
        refine ⟨hmem, ?_⟩
        have hwf : ∀ e ∈ log, e.2 = p e.1 := by
          intro e he
          rw [hs₃] at he
          rcases List.mem_append.mp he with he | he
          · rw [hs₂] at he
            rcases List.mem_append.mp he with he | he
            · rw [hs₁] at he
              simp only [List.nil_append] at he
              exact hw₁ e he
            · exact hw₂ e he
          · exact hw₃ e he
        exact (hwf (v, true) hmem).symm

/-- Witness for C10: boundary probe at 1, `low = margin = 1`; the
search returns 1 and its log records the successful probe at 1. -/
theorem best_param_search_returns_probed_witness :
    (1 ≤ 1 ∧ 1 ≤ 1 ∧
      best_param_search 10 1 1 (logProbe (probeLE 1)) [] =
        .found 1 [(1, true), (2, false)]) ∧
    ((1, true) ∈ [(1, true), (2, false)] ∧ probeLE 1 1 = true) :=
  ⟨⟨by decide, by decide, by
      simp [best_param_search, floorPhase, floorLoop, doubleLoop,
        bisectLoop, logProbe, probeLE]⟩,
    best_param_search_returns_probed (probeLE 1) 10 1 1 1
      [(1, true), (2, false)] (by decide) (by decide)
      (by simp [best_param_search, floorPhase, floorLoop, doubleLoop,
        bisectLoop, logProbe, probeLE])⟩

/-! ### Lemmas about the configuration model -/

/-- Reading a field succeeds with `v` exactly when the field is
present with value `v`. -/
theorem pyRead_eq_ok (o : Option PyVal) (v : PyVal) :
    pyRead o = .ok v ↔ o = some v := by
  cases o <;> simp [pyRead]

/-- A state predicate a probe preserves is preserved by the floor
loop. -/
theorem floorLoop_preserves (P : σ → Prop) (probe : Probe σ)
    (hp : ∀ n s, P s → P (probe n s).2) :
    ∀ fuel low s, P s → P (floorLoop probe fuel low s).2 := by
  intro fuel
  induction fuel with
  | zero => intro low s hP; exact hP
  | succ f ih =>
    intro low s hP
    rw [floorLoop]
    by_cases h0 : low = 0
    · rw [if_pos h0]; exact hP
    · rw [if_neg h0]
      cases hr : (probe (low / 2) s).1
      · simp only [hr, Bool.false_eq_true, if_false]
        exact ih (low / 2) _ (hp _ _ hP)
      · simp only [hr, if_true]
        exact hp _ _ hP

/-- A state predicate a probe preserves is preserved by the floor
phase. -/
theorem floorPhase_preserves (P : σ → Prop) (probe : Probe σ)
    (hp : ∀ n s, P s → P (probe n s).2) (low : Nat) (s : σ) (hP : P s) :
    P (floorPhase probe low s).2 := by
  rw [floorPhase]
  cases hr : (probe low s).1
  · simp only [hr, Bool.false_eq_true, if_false]
    exact floorLoop_preserves P probe hp low low _ (hp _ _ hP)
  · simp only [hr, if_true]
    exact hp _ _ hP

/-- A state predicate a probe preserves is preserved by the doubling
loop. -/
theorem doubleLoop_preserves (P : σ → Prop) (probe : Probe σ)
    (hp : ∀ n s, P s → P (probe n s).2) :
    ∀ fuel low s lo hi s', P s →
      doubleLoop probe fuel low s = some ((lo, hi), s') → P s' := by
  intro fuel
  induction fuel with
  | zero => intro low s lo hi s' hP h; exact Option.noConfusion h
  | succ f ih =>
    intro low s lo hi s' hP h
    rw [doubleLoop] at h
    cases hr : (probe (2 * low) s).1
    · simp only [hr, Bool.false_eq_true, if_false, Option.some.injEq,
        Prod.mk.injEq] at h
      obtain ⟨-, h₂⟩ := h
      rw [← h₂]
      exact hp _ _ hP
    · simp only [hr, if_true] at h
      exact ih (2 * low) _ lo hi s' (hp _ _ hP) h

/-- A state predicate a probe preserves is preserved by the bisection
loop. -/
theorem bisectLoop_preserves (P : σ → Prop) (probe : Probe σ)
    (margin : Nat) (hp : ∀ n s, P s → P (probe n s).2) :
    ∀ fuel lo hi s v s', P s →
      bisectLoop probe margin fuel lo hi s = some (v, s') → P s' := by
  intro fuel
  induction fuel with
  | zero =>
    intro lo hi s v s' hP h
    rw [bisectLoop] at h
    by_cases hc : hi - lo ≤ margin
    · rw [if_pos hc] at h
      injection h with h
      injection h with h₁ h₂
      rw [← h₂]; exact hP
    · rw [if_neg hc] at h
      exact Option.noConfusion h
  | succ f ih =>
    intro lo hi s v s' hP h
    rw [bisectLoop] at h
    by_cases hc : hi - lo ≤ margin
    · rw [if_pos hc] at h
      injection h with h
      injection h with h₁ h₂
      rw [← h₂]; exact hP
    · rw [if_neg hc] at h
      cases hr : (probe ((lo + hi) / 2) s).1
      · simp only [hr, Bool.false_eq_true, if_false] at h
        exact ih lo ((lo + hi) / 2) _ v s' (hp _ _ hP) h
      · simp only [hr, if_true] at h
        exact ih ((lo + hi) / 2) hi _ v s' (hp _ _ hP) h

/-- A state predicate a probe preserves holds for the state carried by
a `noViable` or `found` outcome of the whole search. -/
theorem best_param_search_preserves (P : σ → Prop) (probe : Probe σ)
    (hp : ∀ n s, P s → P (probe n s).2) (fuel low margin : Nat) (s : σ)
    (hP : P s) :
    (∀ s', best_param_search fuel low margin probe s = .noViable s' →
      P s') ∧
    (∀ v s', best_param_search fuel low margin probe s = .found v s' →
      P s') := by
  rw [best_param_search]
  by_cases ha : low = 0 ∨ margin = 0
  · rw [if_pos ha]
    exact ⟨fun s' h => SearchOutcome.noConfusion h,
      fun v s' h => SearchOutcome.noConfusion h⟩
  · rw [if_neg ha]
    rcases hfp : floorPhase probe low s with ⟨o, s₁⟩
    have hPs₁ : P s₁ := by
      have := floorPhase_preserves P probe hp low s hP
      rw [hfp] at this
      exact this
    rcases o with - | l₀
    · exact ⟨fun s' h => by injection h with h; rw [← h]; exact hPs₁,
        fun v s' h => SearchOutcome.noConfusion h⟩
    · simp only
      rcases hdl : doubleLoop probe fuel l₀ s₁ with - | ⟨⟨lo, hi⟩, s₂⟩
      · exact ⟨fun s' h => SearchOutcome.noConfusion h,
          fun v s' h => SearchOutcome.noConfusion h⟩
      · have hPs₂ : P s₂ :=
          doubleLoop_preserves P probe hp fuel l₀ s₁ lo hi s₂ hPs₁ hdl
        simp only
        rcases hbl : bisectLoop probe margin fuel lo hi s₂
          with - | ⟨v', s₃⟩
        · exact ⟨fun s' h => SearchOutcome.noConfusion h,
            fun v s' h => SearchOutcome.noConfusion h⟩
        · have hPs₃ : P s₃ :=
            bisectLoop_preserves P probe margin hp fuel lo hi s₂ v' s₃
              hPs₂ hbl
          refine ⟨fun s' h => SearchOutcome.noConfusion h,
            fun v s' h => ?_⟩
          injection h with h₁ h₂
          rw [← h₂]; exact hPs₃

/-! ### Claim theorems about the orchestrator -/

/-- C2 fails on the code: a child that terminates abnormally (a hard
crash: neither the `try` body nor the `except` handler of
`ProcessWrapper.run` completes, so nothing is sent through the pipe)
is reported to the caller as a SUCCESS, not as a failure —
`p.exception` polls an empty pipe, stays None, and `launch_process`
raises nothing.  The search then treats the crashed candidate as
viable. -/
theorem launch_process_crashed_reports_success
    (child : Config → ChildOutcome) (c : Config)
    (h : child c = .crashed) :
    launch_process child c = .ok () := by
  simp [launch_process, processException, childPipeMsg, h]

/-- Witness for the crash behaviour at a concrete configuration. -/
theorem launch_process_crashed_reports_success_witness :
    childCrash cfgDemo = .crashed ∧
    launch_process childCrash cfgDemo = .ok () :=
  ⟨rfl, launch_process_crashed_reports_success childCrash cfgDemo rfl⟩

/-- A probe closure's tail: the success bit it reports is the
outcome of the launch on the updated configuration. -/
theorem launch_pair_eq (child : Config → ChildOutcome) (c : Config) :
    (match launch_process child c with
      | Except.ok _ => (true, c)
      | Except.error _ => (false, c)) = (isLaunchOk child c, c) := by
  rw [isLaunchOk]
  cases launch_process child c
  · rfl
  · rfl

/-- C8: the Stage-A probe closure at candidate `n` writes
`num_envs := n`, `train_batch_size := n` and
`num_episodes := num_iters * train_batch_size / episode_length`
into the configuration, and only then delegates the run (the launch
sees exactly the updated configuration, and the probe's success bit
is the launch outcome).  Stated for a well-formed
`episode_length` (an int `L ≠ 0`), under which the formula cannot
raise. -/
theorem stageA_probe_sets_config (nI : Int) (child : Config → ChildOutcome)
    (n : Nat) (cfg : Config) (L : Int)
    (hL : cfg.episode_length = some (.vint L)) (hL0 : L ≠ 0) :
    set_num_envs_and_train nI child n cfg =
      (isLaunchOk child
        { cfg with
          num_envs := some (.vint (n : Int)),
          train_batch_size := some (.vint (n : Int)),
          num_episodes := some
            (.vfloat (ratDiv (mkRat (nI * (n : Int)) 1) (mkRat L 1))) },
       { cfg with
         num_envs := some (.vint (n : Int)),
         train_batch_size := some (.vint (n : Int)),
         num_episodes := some
           (.vfloat (ratDiv (mkRat (nI * (n : Int)) 1) (mkRat L 1))) }) := by
  have hz : ¬ mkRat L 1 = 0 := by
    rw [Rat.mkRat_eq_zero one_ne_zero]
    exact hL0
  simp only [set_num_envs_and_train, numEpisodesFormula, pyRead, pyMul,
    pyDiv, PyVal.asInt, PyVal.asRat, bind, Except.bind, hL, if_neg hz]
  exact launch_pair_eq child _

/-- Witness for C8 at `num_iters = 2`, candidate 3, a demo
configuration with `episode_length = 1`. -/
theorem stageA_probe_sets_config_witness :
    (cfgDemo.episode_length = some (.vint 1) ∧ (1 : Int) ≠ 0) ∧
    set_num_envs_and_train 2 childBound 3 cfgDemo =
      (isLaunchOk childBound
        { cfgDemo with
          num_envs := some (.vint 3),
          train_batch_size := some (.vint 3),
          num_episodes := some
            (.vfloat (ratDiv (mkRat (2 * 3) 1) (mkRat 1 1))) },
       { cfgDemo with
         num_envs := some (.vint 3),
         train_batch_size := some (.vint 3),
         num_episodes := some
           (.vfloat (ratDiv (mkRat (2 * 3) 1) (mkRat 1 1))) }) :=
  ⟨⟨by decide, by decide⟩,
    stageA_probe_sets_config 2 childBound 3 cfgDemo 1 (by decide)
      (by decide)⟩

/-- With `num_envs = None` in the configuration (the Stage-A
no-viable-value sentinel), every Stage-B probe raises a TypeError
while computing `candidate * num_envs`, before mutating anything. -/
theorem setB_probe_fails_on_vnone (nI : Int)
    (child : Config → ChildOutcome) (b : Nat) (c : Config)
    (h : c.num_envs = some .vnone) :
    set_batch_size_per_env_and_train nI child b c = (false, c) := by
  rw [set_batch_size_per_env_and_train]
  simp [h, pyRead, pyMul, PyVal.asInt, PyVal.asRat, bind, Except.bind]

/-- A probe that fails at every candidate without touching the state
makes the whole search return `noViable` with the state unchanged. -/
theorem best_param_search_const_fail (probe : Probe σ) (s : σ)
    (h : ∀ n, probe n s = (false, s)) (fuel low margin : Nat)
    (hl : low ≠ 0) (hm : margin ≠ 0) :
    best_param_search fuel low margin probe s = .noViable s := by
  rw [best_param_search, if_neg (by tauto),
    floorPhase_const_fail probe s h low]

/-- After a Stage-A failure (`num_envs = None`), Stage B runs, every
candidate fails, and the final commit raises a TypeError multiplying
None by None, leaving the configuration as Stage A left it. -/
theorem stageB_from_vnone (child : Config → ChildOutcome) (nI : Int)
    (fuel : Nat) (ne wb : PyVal) (c : Config)
    (h : c.num_envs = some .vnone) :
    auto_scaling_stageB child nI fuel ne wb c = .error .typeError c := by
  have hb : best_param_search fuel 1 1
      (set_batch_size_per_env_and_train nI child) c = .noViable c :=
    best_param_search_const_fail _ c
      (fun n => setB_probe_fails_on_vnone nI child n c h) fuel 1 1
      one_ne_zero one_ne_zero
  rw [auto_scaling_stageB, hb]
  simp [auto_scaling_commit, h, pyRead, pyMul, PyVal.asInt, PyVal.asRat]

/-- The Stage-A probe closure never touches `use_wandb`. -/
theorem stageA_probe_preserves_wandb (nI : Int)
    (child : Config → ChildOutcome) (n : Nat) (c : Config) :
    ((set_num_envs_and_train nI child n c).2).use_wandb = c.use_wandb := by
  simp only [set_num_envs_and_train]
  split
  · rfl
  · split <;> rfl

/-- If the commit step returns a configuration, that configuration
carries the restored `num_episodes` and `use_wandb`. -/
theorem auto_scaling_commit_ok (ne wb maxB : PyVal) (c c' : Config)
    (h : auto_scaling_commit ne wb maxB c = .ok c') :
    c'.num_episodes = some ne ∧ c'.use_wandb = some wb := by
  rw [auto_scaling_commit] at h
  rcases h1 : pyRead c.num_envs with e | nev
  · rw [h1] at h; exact RunResult.noConfusion h
  · rw [h1] at h
    simp only at h
    rcases h2 : pyMul maxB nev with e | t
    · rw [h2] at h; exact RunResult.noConfusion h
    · rw [h2] at h
      simp only at h
      injection h with h
      rw [← h]
      exact ⟨rfl, rfl⟩

/-- If Stage B plus commit returns a configuration, that configuration
carries the restored `num_episodes` and `use_wandb`. -/
theorem auto_scaling_stageB_ok (child : Config → ChildOutcome) (nI : Int)
    (fuel : Nat) (ne wb : PyVal) (c c' : Config)
    (h : auto_scaling_stageB child nI fuel ne wb c = .ok c') :
    c'.num_episodes = some ne ∧ c'.use_wandb = some wb := by
  rw [auto_scaling_stageB] at h
  rcases hb : best_param_search fuel 1 1
      (set_batch_size_per_env_and_train nI child) c
    with - | - | c₂ | ⟨w, c₂⟩
  · rw [hb] at h; exact RunResult.noConfusion h
  · rw [hb] at h; exact RunResult.noConfusion h
  · rw [hb] at h
    exact auto_scaling_commit_ok ne wb PyVal.vnone c₂ c' h
  · rw [hb] at h
    exact auto_scaling_commit_ok ne wb (PyVal.vint (w : Int)) c₂ c' h

/-- C9 (amended: only the three fields that are read before probing —
`trainer.num_episodes`, `saving.use_wandb`, `trainer.num_envs` — make
`auto_scaling` fail fast with a KeyError before any probe executes;
a missing `trainer.train_batch_size` is written before it is ever
read and causes no error at all, and a missing `env.episode_length`
only makes every probe fail, ending the run much later with a
TypeError).  The conclusions do not depend on the probe (`child`),
which is the formal sense in which no probe has run. -/
theorem auto_scaling_missing_field_fails_fast
    (child : Config → ChildOutcome) (cfg : Config) (nI : Int)
    (fuel : Nat) :
    (cfg.num_episodes = none →
      auto_scaling child cfg nI fuel = .error .keyError cfg) ∧
    (∀ ne, cfg.num_episodes = some ne → cfg.use_wandb = none →
      auto_scaling child cfg nI fuel = .error .keyError cfg) ∧
    (∀ ne wb, cfg.num_episodes = some ne → cfg.use_wandb = some wb →
      cfg.num_envs = none →
      auto_scaling child cfg nI fuel =
        .error .keyError { cfg with use_wandb := some (.vbool false) }) := by
  refine ⟨?_, ?_, ?_⟩
  · intro h
    have h' : pyRead cfg.num_episodes = Except.error PyErr.keyError := by
      rw [h]; rfl
    simp only [auto_scaling, h']
  · intro ne h hw
    have h' : pyRead cfg.num_episodes = Except.ok ne :=
      (pyRead_eq_ok _ _).mpr h
    have hw' : pyRead cfg.use_wandb = Except.error PyErr.keyError := by
      rw [hw]; rfl
    simp only [auto_scaling, h', hw']
  · intro ne wb h hw he
    have h' : pyRead cfg.num_episodes = Except.ok ne :=
      (pyRead_eq_ok _ _).mpr h
    have hw' : pyRead cfg.use_wandb = Except.ok wb :=
      (pyRead_eq_ok _ _).mpr hw
    have he' :
        pyRead ({ cfg with use_wandb := some (.vbool false) } :
          Config).num_envs = Except.error PyErr.keyError := by
      show pyRead cfg.num_envs = Except.error PyErr.keyError
      rw [he]; rfl
    simp only [auto_scaling, h', hw', he']

/-- Witness for the amended C9: a configuration whose
`trainer.num_episodes` key is absent fails fast with a KeyError and
is not mutated. -/
theorem auto_scaling_missing_field_fails_fast_witness :
    cfgMissingNumEpisodes.num_episodes = none ∧
    auto_scaling childBound cfgMissingNumEpisodes 2 5 =
      .error .keyError cfgMissingNumEpisodes :=
  ⟨by decide,
    (auto_scaling_missing_field_fails_fast childBound
      cfgMissingNumEpisodes 2 5).1 (by decide)⟩

/-- Counterexample to C9 as stated: `trainer.train_batch_size` is one
of the required fields, yet a configuration missing it does not fail
fast with a configuration error — the whole tuning run goes through
the probes and finishes successfully. -/
theorem missing_tbs_runs_without_error :
    cfgMissingTbs.train_batch_size = none ∧
    auto_scaling childBound cfgMissingTbs 2 20 =
      .ok ⟨some (.vint 8), some (.vint 8), some (.vint 100),
        some (.vint 1), some (.vbool true)⟩ := by decide

/-- C3 (amended: when Stage A finds no viable value, the whole run
does fail, but not before Stage B: the None sentinel is written into
`num_envs`, Stage B's search runs (every probe raises a TypeError on
`candidate * None`), and the run dies with a TypeError at the Stage-B
commit; the configuration is left with `num_envs = None`, not at the
last attempted value). -/
theorem auto_scaling_stageA_noviable (child : Config → ChildOutcome)
    (cfg c₁ : Config) (nI : Int) (fuel : Nat) (i : Int) (ne wb : PyVal)
    (hne : cfg.num_episodes = some ne) (hwb : cfg.use_wandb = some wb)
    (henv : cfg.num_envs = some (.vint i))
    (hA : best_param_search fuel i.toNat 1
      (set_num_envs_and_train nI child)
      { cfg with use_wandb := some (.vbool false) } = .noViable c₁) :
    auto_scaling child cfg nI fuel =
      .error .typeError { c₁ with num_envs := some .vnone } ∧
    ({ c₁ with num_envs := some .vnone }).num_envs = some .vnone := by
  have hne' : pyRead cfg.num_episodes = Except.ok ne :=
    (pyRead_eq_ok _ _).mpr hne
  have hwb' : pyRead cfg.use_wandb = Except.ok wb :=
    (pyRead_eq_ok _ _).mpr hwb
  have henv' :
      pyRead ({ cfg with use_wandb := some (.vbool false) } :
        Config).num_envs = Except.ok (.vint i) := by
    show pyRead cfg.num_envs = Except.ok (.vint i)
    exact (pyRead_eq_ok _ _).mpr henv
  refine ⟨?_, rfl⟩
  simp only [auto_scaling, hne', hwb', henv', hA]
  exact stageB_from_vnone child nI fuel ne wb _ rfl

/-- Witness for the amended C3: the all-raising child on the demo
configuration; Stage A probes 4, 2, 1, 0, all fail. -/
theorem auto_scaling_stageA_noviable_witness :
    (cfgDemo.num_episodes = some (.vint 100) ∧
      cfgDemo.use_wandb = some (.vbool true) ∧
      cfgDemo.num_envs = some (.vint 4) ∧
      best_param_search 10 (Int.toNat 4) 1
        (set_num_envs_and_train 2 childRaise)
        { cfgDemo with use_wandb := some (.vbool false) } =
        .noViable ⟨some (.vint 0), some (.vint 0),
          some (.vfloat (mkRat 0 1)), some (.vint 1),
          some (.vbool false)⟩) ∧
    (auto_scaling childRaise cfgDemo 2 10 =
      .error .typeError
        { (⟨some (.vint 0), some (.vint 0), some (.vfloat (mkRat 0 1)),
            some (.vint 1), some (.vbool false)⟩ : Config) with
          num_envs := some .vnone } ∧
    ({ (⟨some (.vint 0), some (.vint 0), some (.vfloat (mkRat 0 1)),
        some (.vint 1), some (.vbool false)⟩ : Config) with
      num_envs := some .vnone }).num_envs = some .vnone) :=
  ⟨⟨by decide, by decide, by decide, by decide⟩,
    auto_scaling_stageA_noviable childRaise cfgDemo
      ⟨some (.vint 0), some (.vint 0), some (.vfloat (mkRat 0 1)),
        some (.vint 1), some (.vbool false)⟩ 2 10 4 (.vint 100)
      (.vbool true) (by decide) (by decide) (by decide) (by decide)⟩

/-- Counterexample to C3 as stated: with the all-raising child, Stage
A's last attempted candidate is 0, but afterwards `trainer.num_envs`
holds None (the committed `max_envs`), not the last attempted value
0; the TypeError is raised only at the Stage-B commit, after Stage
B's search has run. -/
theorem stageA_noviable_num_envs_not_last_attempted :
    auto_scaling childRaise cfgDemo 2 10 =
      .error .typeError
        ⟨some .vnone, some (.vint 0), some (.vfloat (mkRat 0 1)),
          some (.vint 1), some (.vbool false)⟩ ∧
    some PyVal.vnone ≠ some (PyVal.vint 0) := by decide

/-- C5 (amended: the restore only happens on a fully successful run;
after a Stage-A total failure the run dies at the Stage-B commit
before reaching the restore, leaving `use_wandb` forced to False
rather than at its pre-call value). -/
theorem auto_scaling_restore (child : Config → ChildOutcome)
    (cfg : Config) (nI : Int) (fuel : Nat) :
    (∀ c', auto_scaling child cfg nI fuel = .ok c' →
      c'.use_wandb = cfg.use_wandb ∧
      c'.num_episodes = cfg.num_episodes) ∧
    (∀ i ne wb c₁, cfg.num_episodes = some ne → cfg.use_wandb = some wb →
      cfg.num_envs = some (.vint i) →
      best_param_search fuel i.toNat 1
        (set_num_envs_and_train nI child)
        { cfg with use_wandb := some (.vbool false) } = .noViable c₁ →
      ∃ c', auto_scaling child cfg nI fuel = .error .typeError c' ∧
        c'.use_wandb = some (.vbool false)) := by
  constructor
  · intro c' h
    rw [auto_scaling] at h
    rcases h1 : pyRead cfg.num_episodes with e | ne
    · rw [h1] at h; exact RunResult.noConfusion h
    · rw [h1] at h
      simp only at h
      rcases h2 : pyRead cfg.use_wandb with e | wb
      · rw [h2] at h; exact RunResult.noConfusion h
      · rw [h2] at h
        simp only at h
        rcases h3 : pyRead ({ cfg with use_wandb := some (.vbool false) } :
            Config).num_envs with e | ev
        · rw [h3] at h; exact RunResult.noConfusion h
        · rw [h3] at h
          simp only at h
          rcases ev with i | q | b | -
          · simp only at h
            rcases h4 : best_param_search fuel i.toNat 1
                (set_num_envs_and_train nI child)
                { cfg with use_wandb := some (.vbool false) }
              with - | - | c₁ | ⟨v, c₁⟩
            · rw [h4] at h; exact RunResult.noConfusion h
            · rw [h4] at h; exact RunResult.noConfusion h
            · rw [h4] at h
              simp only at h
              have hok := auto_scaling_stageB_ok child nI fuel ne wb _ c' h
              exact ⟨by rw [hok.2, (pyRead_eq_ok _ _).mp h2],
                by rw [hok.1, (pyRead_eq_ok _ _).mp h1]⟩
            · rw [h4] at h
              simp only at h
              have hok := auto_scaling_stageB_ok child nI fuel ne wb _ c' h
              exact ⟨by rw [hok.2, (pyRead_eq_ok _ _).mp h2],
                by rw [hok.1, (pyRead_eq_ok _ _).mp h1]⟩
          · exact RunResult.noConfusion h
          · exact RunResult.noConfusion h
          · exact RunResult.noConfusion h
  · intro i ne wb c₁ hne hwb henv hA
    have hne' : pyRead cfg.num_episodes = Except.ok ne :=
      (pyRead_eq_ok _ _).mpr hne
    have hwb' : pyRead cfg.use_wandb = Except.ok wb :=
      (pyRead_eq_ok _ _).mpr hwb
    have henv' :
        pyRead ({ cfg with use_wandb := some (.vbool false) } :
          Config).num_envs = Except.ok (.vint i) := by
      show pyRead cfg.num_envs = Except.ok (.vint i)
      exact (pyRead_eq_ok _ _).mpr henv
    have hpres : c₁.use_wandb = some (.vbool false) :=
      (best_param_search_preserves
        (fun c => c.use_wandb = some (.vbool false))
        (set_num_envs_and_train nI child)
        (fun n s hs => by
          show ((set_num_envs_and_train nI child n s).2).use_wandb =
            some (PyVal.vbool false)
          rw [stageA_probe_preserves_wandb]
          exact hs)
        fuel i.toNat 1 { cfg with use_wandb := some (.vbool false) }
        rfl).1 c₁ hA
    refine ⟨{ c₁ with num_envs := some .vnone }, ?_, hpres⟩
    simp only [auto_scaling, hne', hwb', henv', hA]
    exact stageB_from_vnone child nI fuel ne wb _ rfl

/-- Witness for the amended C5 (success branch): a bounded child, demo
configuration; the run succeeds and both fields come back restored. -/
theorem auto_scaling_restore_witness :
    (auto_scaling childBound cfgDemo 2 20 =
      .ok ⟨some (.vint 8), some (.vint 8), some (.vint 100),
        some (.vint 1), some (.vbool true)⟩) ∧
    ((⟨some (.vint 8), some (.vint 8), some (.vint 100),
        some (.vint 1), some (.vbool true)⟩ : Config).use_wandb =
      cfgDemo.use_wandb ∧
    (⟨some (.vint 8), some (.vint 8), some (.vint 100),
        some (.vint 1), some (.vbool true)⟩ : Config).num_episodes =
      cfgDemo.num_episodes) :=
  ⟨by decide,
    (auto_scaling_restore childBound cfgDemo 2 20).1 _ (by decide)⟩

/-- Counterexample to C5 as stated: a Stage-A total failure on a
configuration whose pre-call `use_wandb` is True ends with
`use_wandb = False` — the restore never runs. -/
theorem stageA_failure_leaves_wandb_false :
    auto_scaling childRaise cfgSmall 2 10 =
      .error .typeError
        ⟨some .vnone, some (.vint 0), some (.vfloat (mkRat 0 1)),
          some (.vint 1), some (.vbool false)⟩ ∧
    cfgSmall.use_wandb = some (.vbool true) ∧
    some (PyVal.vbool false) ≠ some (PyVal.vbool true) := by decide

end WarpDrive
